import Mathlib

set_option autoImplicit false

namespace PythonTemplate

/-!
Shallow embedding of the `src/scripts` command-runner of the python-template
repository: the command registry (`base.py`), the working-directory scope and
error boundary (`base.py`), module discovery (`__init__.py`), and the
workflow/action document builders (`ci/_base.py`, `ci/python_tests.py`).
-/

/-- YAML-like values: the ordered documents assembled by the builders.
Mappings are ordered association lists, mirroring `collections.OrderedDict`
(and the insertion-ordered `dict`) in the source. -/
inductive Value where
  | str : String → Value
  | int : Int → Value
  | bool : Bool → Value
  | list : List Value → Value
  | map : List (String × Value) → Value

abbrev Doc := List (String × Value)

/-- Python `dict` assignment `d[k] = v`: overwrite in place when the key is
already present (keeping its position), append at the end otherwise. -/
def assocSet {α : Type} (l : List (String × α)) (k : String) (v : α) :
    List (String × α) :=
  match l with
  | [] => [(k, v)]
  | (k2, v2) :: rest =>
    if k2 = k then (k, v) :: rest else (k2, v2) :: assocSet rest k v

/-- Python `dict` lookup `d[k]` / `k in d`. -/
def assocFind {α : Type} (l : List (String × α)) (k : String) : Option α :=
  match l with
  | [] => none
  | (k2, v) :: rest => if k2 = k then some v else assocFind rest k

/-- The insertion-ordered key list of a mapping. -/
def keysOf {α : Type} (l : List (String × α)) : List String :=
  l.map Prod.fst

/-! ## Command registry (`src/scripts/base.py`) -/

/-- A command class at definition time: its `name` class attribute and an
identifier standing for the instance `cls.as_command()` creates. -/
structure CmdClass where
  name : String
  instId : Nat
  deriving DecidableEq

/-- `_BaseCommand.__init_subclass__`: if the class's `name` is empty, return
without registering; otherwise `_COMMAND_REGISTER[name] = cls.as_command()`. -/
def initSubclass (reg : List (String × Nat)) (c : CmdClass) :
    List (String × Nat) :=
  if c.name = "" then reg else assocSet reg c.name c.instId

/-- The registry produced by defining a list of command classes in order,
starting from the empty `_COMMAND_REGISTER`. -/
def registerAll (classes : List CmdClass) : List (String × Nat) :=
  classes.foldl initSubclass []

/-- Registry lookup, as performed by `scripts.__getattr__`. -/
def resolve (reg : List (String × Nat)) (n : String) : Option Nat :=
  assocFind reg n

/-! ## Errors, working-directory scope and the invocation boundary
(`src/scripts/base.py`) -/

/-- Python exceptions relevant to the scripts package.  `commandError` is the
domain error `CommandError` (with the optional message it was built from);
everything else is outside the domain-error contract. -/
inductive PyErr where
  | commandError : Option String → PyErr
  | notImplementedError : PyErr
  | fileNotFoundError : String → PyErr
  | otherError : String → PyErr
  deriving DecidableEq

def PyErr.isCommandError : PyErr → Bool
  | .commandError _ => true
  | _ => false

/-- The outcome of running a command's `handle`: normal return or a raised
exception. -/
abbrev HandleResult := Except PyErr Unit

/-- The directory `handle` runs in: `os.chdir(self.cwd)` is performed exactly
when the class attribute `cwd` is not `None`. -/
def effectiveCwd (cwdOverride : Option String) (cwd0 : String) : String :=
  match cwdOverride with
  | some c => c
  | none => cwd0

/-- `_BaseCommand.set_cwd`: save `_cwd = Path.cwd()`, change into the override
when one is declared, run the body, then `os.chdir(_cwd)`.  The generator has
no `try/finally`, so when the body raises, the restoring `chdir` line is never
executed and the directory stays wherever the body left it.  `handle` is
modelled as a function from the current directory to its result and the
directory it leaves behind. -/
def set_cwd (cwdOverride : Option String)
    (handle : String → HandleResult × String) (cwd0 : String) :
    HandleResult × String :=
  let c1 := effectiveCwd cwdOverride cwd0
  match handle c1 with
  | (.ok u, _) => (.ok u, cwd0)
  | (.error e, c2) => (.error e, c2)

/-- What the process observes after `Command.__call__`: a process exit with a
code and the lines printed to stderr, or an exception propagating uncaught. -/
inductive CallOutcome where
  | exit : Nat → List String → CallOutcome
  | uncaught : PyErr → CallOutcome
  deriving DecidableEq

/-- `str(err)` for a `CommandError`: the message, or `""` when raised bare. -/
def errText (m : Option String) : String := m.getD ""

/-- The `try/except CommandError` boundary in `Command.__call__` and
`CommandWithParser.__call__`: normal return means the process continues and
exits 0; a `CommandError` is printed to stderr and mapped to `exit(1)`; any
other exception propagates uncaught. -/
def exceptCommandError : HandleResult → CallOutcome
  | .ok _ => .exit 0 []
  | .error (.commandError m) => .exit 1 [errText m]
  | .error e => .uncaught e

/-- `Command.__call__` (after argument parsing): the `set_cwd` scope around
`handle`, wrapped in the `CommandError` boundary. -/
def commandCall (cwdOverride : Option String)
    (handle : String → HandleResult × String) (cwd0 : String) :
    CallOutcome × String :=
  let r := set_cwd cwdOverride handle cwd0
  (exceptCommandError r.1, r.2)

/-! ### Registry lemmas -/

theorem assocFind_assocSet_self {α : Type} (l : List (String × α)) (k : String)
    (v : α) : assocFind (assocSet l k v) k = some v := by
  induction l with
  | nil => simp [assocSet, assocFind]
  | cons p rest ih =>
    obtain ⟨k2, v2⟩ := p
    by_cases h : k2 = k
    · simp [assocSet, assocFind, h]
    · simp [assocSet, assocFind, h, ih]

theorem assocFind_assocSet_other {α : Type} (l : List (String × α))
    (k k2 : String) (v : α) (h : k2 ≠ k) :
    assocFind (assocSet l k2 v) k = assocFind l k := by
  induction l with
  | nil => simp [assocSet, assocFind, h]
  | cons p rest ih =>
    obtain ⟨k3, v3⟩ := p
    by_cases h3 : k3 = k2
    · subst h3
      simp [assocSet, assocFind, h]
    · by_cases h4 : k3 = k
      · subst h4
        simp [assocSet, assocFind, h3, Ne.symm h]
      · simp [assocSet, assocFind, h3, h4, ih]

theorem mem_assocSet {α : Type} (l : List (String × α)) (k : String) (v : α)
    (p : String × α) (hp : p ∈ assocSet l k v) : p ∈ l ∨ p = (k, v) := by
  induction l with
  | nil =>
    simp [assocSet] at hp
    exact Or.inr hp
  | cons q rest ih =>
    obtain ⟨k2, v2⟩ := q
    by_cases h : k2 = k
    · simp [assocSet, h] at hp
      rcases hp with hp | hp
      · exact Or.inr hp
      · exact Or.inl (List.mem_cons_of_mem _ hp)
    · simp [assocSet, h] at hp
      rcases hp with hp | hp
      · exact Or.inl (by simp [hp])
      · rcases ih hp with h2 | h2
        · exact Or.inl (List.mem_cons_of_mem _ h2)
        · exact Or.inr h2

theorem foldl_initSubclass_preserves (l : List CmdClass)
    (reg : List (String × Nat)) (n : String)
    (hl : ∀ c ∈ l, c.name ≠ n) :
    assocFind (l.foldl initSubclass reg) n = assocFind reg n := by
  induction l generalizing reg with
  | nil => rfl
  | cons c rest ih =>
    have hc : c.name ≠ n := hl c (List.mem_cons_self c rest)
    have hrest : ∀ c2 ∈ rest, c2.name ≠ n :=
      fun c2 h2 => hl c2 (List.mem_cons_of_mem _ h2)
    rw [List.foldl_cons, ih _ hrest]
    unfold initSubclass
    by_cases he : c.name = ""
    · simp [he]
    · simp [he, assocFind_assocSet_other _ _ _ _ hc]

theorem registerAll_names_nonempty (classes : List CmdClass)
    (reg : List (String × Nat)) (hreg : ∀ p ∈ reg, p.1 ≠ "") :
    ∀ p ∈ classes.foldl initSubclass reg, p.1 ≠ "" := by
  induction classes generalizing reg with
  | nil => exact hreg
  | cons c rest ih =>
    intro p hp
    refine ih (initSubclass reg c) ?_ p hp
    intro q hq
    unfold initSubclass at hq
    by_cases he : c.name = ""
    · simp [he] at hq
      exact hreg q hq
    · simp [he] at hq
      rcases mem_assocSet _ _ _ _ hq with h2 | h2
      · exact hreg q h2
      · rw [h2]
        exact he

/-- C5: for every pair of command types defined with the same non-empty name,
only the later-defined one is resolvable from the registry afterward (last
registration wins), and a command type whose name is empty is never
registered. -/
theorem c5_registry_last_wins :
    (∀ (l1 l2 : List CmdClass) (c : CmdClass),
        c.name ≠ "" → (∀ c2 ∈ l2, c2.name ≠ c.name) →
        resolve (registerAll (l1 ++ c :: l2)) c.name = some c.instId)
    ∧ (∀ (classes : List CmdClass) (p : String × Nat),
        p ∈ registerAll classes → p.1 ≠ "") := by
  constructor
  · intro l1 l2 c hc hl2
    unfold registerAll resolve
    rw [List.foldl_append, List.foldl_cons,
      foldl_initSubclass_preserves _ _ _ hl2]
    unfold initSubclass
    simp [hc, assocFind_assocSet_self]
  · intro classes p hp
    exact registerAll_names_nonempty classes [] (by simp) p hp

/-- Witness for C5 at concrete inputs: classes named `a#1`, `a#2`, `b#3` in
definition order resolve `"a"` to the later instance `2`. -/
theorem c5_registry_last_wins_witness :
    resolve (registerAll [⟨"a", 1⟩, ⟨"a", 2⟩, ⟨"b", 3⟩]) "a" = some 2 :=
  c5_registry_last_wins.1 [⟨"a", 1⟩] [⟨"b", 3⟩] ⟨"a", 2⟩ (by decide)
    (by decide)

/-- C4: a `CommandError` raised inside `handle` is caught at the invocation
boundary, its text is printed to stderr, and the process exits with status 1;
a normal return exits 0; every other exception propagates uncaught. -/
theorem c4_error_boundary (o : Option String)
    (h : String → HandleResult × String) (c0 : String) :
    ((h (effectiveCwd o c0)).1 = .ok () →
      (commandCall o h c0).1 = .exit 0 [])
    ∧ (∀ m, (h (effectiveCwd o c0)).1 = .error (.commandError m) →
      (commandCall o h c0).1 = .exit 1 [errText m])
    ∧ (∀ e, (h (effectiveCwd o c0)).1 = .error e →
      e.isCommandError = false → (commandCall o h c0).1 = .uncaught e) := by
  refine ⟨?_, ?_, ?_⟩
  · intro hok
    rcases hh : h (effectiveCwd o c0) with ⟨r, c2⟩
    rw [hh] at hok
    simp at hok
    subst hok
    simp [commandCall, set_cwd, hh, exceptCommandError]
  · intro m hm
    rcases hh : h (effectiveCwd o c0) with ⟨r, c2⟩
    rw [hh] at hm
    simp at hm
    subst hm
    simp [commandCall, set_cwd, hh, exceptCommandError]
  · intro e he hnc
    rcases hh : h (effectiveCwd o c0) with ⟨r, c2⟩
    rw [hh] at he
    simp at he
    subst he
    simp only [commandCall, set_cwd, hh]
    cases e with
    | commandError m => simp [PyErr.isCommandError] at hnc
    | notImplementedError => simp [exceptCommandError]
    | fileNotFoundError p => simp [exceptCommandError]
    | otherError s => simp [exceptCommandError]

/-- Witness for C4 at concrete handles: a success exits 0, a
`CommandError("boom")` exits 1 printing `boom`, and a `NotImplementedError`
propagates uncaught. -/
theorem c4_error_boundary_witness :
    (commandCall none (fun c => (.ok (), c)) "/w").1 = .exit 0 []
    ∧ (commandCall none
        (fun c => (.error (.commandError (some "boom")), c)) "/w").1
      = .exit 1 ["boom"]
    ∧ (commandCall none
        (fun c => (.error .notImplementedError, c)) "/w").1
      = .uncaught .notImplementedError :=
  ⟨(c4_error_boundary none (fun c => (.ok (), c)) "/w").1 rfl,
   (c4_error_boundary none
      (fun c => (.error (.commandError (some "boom")), c)) "/w").2.1
      (some "boom") rfl,
   (c4_error_boundary none
      (fun c => (.error .notImplementedError, c)) "/w").2.2
      .notImplementedError rfl rfl⟩

/-- C6 counterexample: with override `/override` and a `handle` that raises,
`set_cwd` leaves the process in `/override`, not the prior `/start` — the
restore line of the generator is skipped on the exception path, so the
directory is not restored on every exit path. -/
theorem c6_cwd_counterexample :
    (set_cwd (some "/override")
        (fun c => (.error (.commandError none), c)) "/start").2 = "/override"
    ∧ "/override" ≠ "/start" :=
  ⟨rfl, by decide⟩

/-- C6 amended: the prior working directory is restored when `handle` returns
normally; when `handle` raises, the restore is skipped and the process stays
in whatever directory the handle (or the override) left it. -/
theorem c6_cwd_restored_on_normal_exit_only (o : Option String)
    (h : String → HandleResult × String) (c0 : String) :
    (∀ u c2, h (effectiveCwd o c0) = (.ok u, c2) →
      (set_cwd o h c0).2 = c0)
    ∧ (∀ e c2, h (effectiveCwd o c0) = (.error e, c2) →
      (set_cwd o h c0).2 = c2) := by
  constructor
  · intro u c2 hh
    simp [set_cwd, hh]
  · intro e c2 hh
    simp [set_cwd, hh]

/-- Witness for the amended C6 at concrete handles: a normal return restores
`/start` even after the handle moved to `/elsewhere`; a raising handle that
stays in the override directory leaves the process there. -/
theorem c6_cwd_restored_witness :
    (set_cwd (some "/override")
        (fun _ => (.ok (), "/elsewhere")) "/start").2 = "/start"
    ∧ (set_cwd (some "/override")
        (fun c => (.error (.commandError none), c)) "/start").2
      = "/override" :=
  ⟨(c6_cwd_restored_on_normal_exit_only (some "/override")
      (fun _ => (.ok (), "/elsewhere")) "/start").1 () "/elsewhere" rfl,
   (c6_cwd_restored_on_normal_exit_only (some "/override")
      (fun c => (.error (.commandError none), c)) "/start").2
      (.commandError none) "/override" rfl⟩

/-! ## Module discovery (`src/scripts/__init__.py`) -/

/-- A directory listing as seen by `pathlib.Path.iterdir`: a sequence of
entries, each a file or a directory carrying its own listing. -/
inductive FsTree where
  | nil : FsTree
  | file : String → FsTree → FsTree
  | dir : String → FsTree → FsTree → FsTree

/-- `name.startswith("_")`: the first character is an underscore. -/
def startsWithUnderscore (n : String) : Bool :=
  match n.data with
  | [] => false
  | c :: _ => c = '_'

/-- `pathlib.PurePath.suffix` of a file name: `name[i:]` for the last dot
index `i` when `0 < i < len(name) - 1`, else the empty string. -/
def suffixOf (n : String) : String :=
  let cs := n.data
  match cs.reverse.findIdx? (fun c => decide (c = '.')) with
  | none => ""
  | some j =>
    let i := cs.length - 1 - j
    if 0 < i ∧ i < cs.length - 1 then String.mk (cs.drop i) else ""

/-- A file name is eligible for discovery: not private, suffix `".py"`. -/
def eligibleName (n : String) : Bool :=
  !startsWithUnderscore n && decide (suffixOf n = ".py")

/-- `_walk_files(path, exclude_current)`: directories are always recursed into
with `exclude_current=False`; a file is yielded when `exclude_current` is
false, its name does not start with `"_"` and its suffix is `".py"`.  Yielded
paths are relative to the walk root. -/
def walkFiles (excludeCurrent : Bool) : FsTree → List (List String)
  | .nil => []
  | .dir n sub rest =>
    (walkFiles false sub).map (fun p => n :: p) ++ walkFiles excludeCurrent rest
  | .file n rest =>
    (if !excludeCurrent && eligibleName n then [[n]] else [])
      ++ walkFiles excludeCurrent rest

/-- All file paths of a tree (relative, one entry per file). -/
def filePaths : FsTree → List (List String)
  | .nil => []
  | .dir n sub rest => (filePaths sub).map (fun p => n :: p) ++ filePaths rest
  | .file n rest => [n] :: filePaths rest

/-- Which file paths the walk keeps: the final component must be an eligible
name, and when the walk starts with `exclude_current` set, single-component
paths (files directly in the root directory) are never kept. -/
def pathEligible (excludeCurrent : Bool) : List String → Bool
  | [] => false
  | [n] => !excludeCurrent && eligibleName n
  | _ :: rest@(_ :: _) => pathEligible false rest

/-- The `src/scripts` package tree of this repository, as walked by
`_import_all_modules` (which calls `_walk_files(<scripts dir>, True)`). -/
def scriptsTree : FsTree :=
  .file "__init__.py" (.file "base.py"
    (.dir "ci"
      (.file "_base.py" (.file "approval_bot.py"
        (.file "python_tests.py" .nil)))
      (.dir "python"
        (.file "linters.py" (.file "tests.py" .nil))
        .nil)))

theorem nil_not_mem_filePaths (t : FsTree) : [] ∉ filePaths t := by
  induction t with
  | nil => simp [filePaths]
  | dir n sub rest ihsub ihrest =>
    simp only [filePaths, List.mem_append, List.mem_map]
    rintro (⟨q, _, h⟩ | h)
    · exact absurd h (by simp)
    · exact ihrest h
  | file n rest ihrest =>
    simp only [filePaths, List.mem_cons]
    rintro (h | h)
    · exact absurd h (by simp)
    · exact ihrest h

theorem mem_walkFiles (ex : Bool) (t : FsTree) (p : List String) :
    p ∈ walkFiles ex t ↔ p ∈ filePaths t ∧ pathEligible ex p = true := by
  induction t generalizing ex p with
  | nil =>
    simp [walkFiles, filePaths]
  | dir n sub rest ihsub ihrest =>
    simp only [walkFiles, filePaths, List.mem_append, List.mem_map]
    constructor
    · rintro (⟨q, hq, rfl⟩ | hp)
      · rcases (ihsub false q).mp hq with ⟨h1, h2⟩
        refine ⟨Or.inl ⟨q, h1, rfl⟩, ?_⟩
        rcases q with _ | ⟨a, q2⟩
        · simp [pathEligible] at h2
        · simpa [pathEligible] using h2
      · rcases (ihrest ex p).mp hp with ⟨h1, h2⟩
        exact ⟨Or.inr h1, h2⟩
    · rintro ⟨⟨q, hq, rfl⟩ | hp, h2⟩
      · left
        refine ⟨q, (ihsub false q).mpr ⟨hq, ?_⟩, rfl⟩
        rcases q with _ | ⟨a, q2⟩
        · exact absurd hq (nil_not_mem_filePaths sub)
        · simpa [pathEligible] using h2
      · right
        exact (ihrest ex p).mpr ⟨hp, h2⟩
  | file n rest ihrest =>
    simp only [walkFiles, filePaths, List.mem_append, List.mem_cons]
    constructor
    · intro hp
      by_cases hc : (!ex && eligibleName n) = true
      · rw [if_pos hc] at hp
        simp at hp
        rcases hp with rfl | hp
        · rcases Bool.and_eq_true_iff.mp hc with ⟨hex, hc2⟩
          exact ⟨Or.inl rfl, by simp [pathEligible, hex, hc2]⟩
        · rcases (ihrest ex p).mp hp with ⟨h1, h2⟩
          exact ⟨Or.inr h1, h2⟩
      · rw [if_neg hc] at hp
        simp at hp
        rcases (ihrest ex p).mp hp with ⟨h1, h2⟩
        exact ⟨Or.inr h1, h2⟩
    · rintro ⟨rfl | hp, h2⟩
      · simp only [pathEligible] at h2
        rw [if_pos h2]
        simp
      · right
        exact (ihrest ex p).mpr ⟨hp, h2⟩

/-- C7 counterexample: `base.py` is a non-private `.py` file of the command
source tree and is not the root unit `__init__.py`, yet the discovery walk
(which starts with `exclude_current=True` and therefore skips every file
directly in the root directory, not just the root unit) does not yield it. -/
theorem c7_discovery_counterexample :
    ["base.py"] ∉ walkFiles true scriptsTree
    ∧ ["base.py"] ∈ filePaths scriptsTree
    ∧ eligibleName "base.py" = true
    ∧ "base.py" ≠ "__init__.py" := by
  refine ⟨?_, by decide, by decide, by decide⟩
  decide

/-- C7 amended: discovery imports exactly the non-private `.py` files that do
not sit directly in the root directory of the tree (the root-level exclusion
covers every root-level file, `base.py` included, not only the root unit);
on this repository's tree that is the four modules under `ci/` and `python/`
other than `ci/_base.py`. -/
theorem c7_discovery_amended :
    (∀ (t : FsTree) (p : List String),
      p ∈ walkFiles true t ↔ p ∈ filePaths t ∧ pathEligible true p = true)
    ∧ walkFiles true scriptsTree =
      [["ci", "approval_bot.py"], ["ci", "python_tests.py"],
       ["python", "linters.py"], ["python", "tests.py"]] := by
  refine ⟨fun t p => mem_walkFiles true t p, ?_⟩
  decide

/-! ## Workflow and action document builders (`src/scripts/ci/_base.py`) -/

/-- `BASE_WORKFLOW_DIR`, relative to the repository root. -/
def BASE_WORKFLOW_DIR : String := ".github/workflows"

/-- `BASE_ACTION_DIR`, relative to the repository root. -/
def BASE_ACTION_DIR : String := ".github/actions"

/-- `Workflow.workflow_path`: `BASE_WORKFLOW_DIR/<workflow_id>.yml`. -/
def workflowPath (workflow_id : String) : String :=
  BASE_WORKFLOW_DIR ++ "/" ++ workflow_id ++ ".yml"

/-- `Action.action_path`: `BASE_ACTION_DIR/<action_id>`. -/
def actionDirPath (action_id : String) : String :=
  BASE_ACTION_DIR ++ "/" ++ action_id

/-- The file `Action.create` writes: `<action_path>/action.yml`. -/
def actionFilePath (action_id : String) : String :=
  actionDirPath action_id ++ "/action.yml"

/-- `Workflow.get_workflow_definition`: build the ordered document
`name`, `run-name`, (`permissions` only when the permissions hook returns a
truthy, i.e. non-empty, mapping), `on`, `jobs`.  The hooks' results are passed
in, so hook overrides are just different arguments. -/
def get_workflow_definition (workflow_name workflow_id : String)
    (permissions triggers jobs : Doc) : Doc :=
  let w : Doc :=
    assocSet (assocSet [] "name" (.str workflow_name)) "run-name"
      (.str workflow_id)
  let w := if permissions.isEmpty then w
    else assocSet w "permissions" (.map permissions)
  let w := assocSet w "on" (.map triggers)
  assocSet w "jobs" (.map jobs)

/-- `Workflow.get_triggers` default: push and pull_request against `main`. -/
def workflow_default_triggers : Doc :=
  [("push", .map [("branches", .list [.str "main"])]),
   ("pull_request", .map [("branches", .list [.str "main"])])]

/-- `Workflow.get_permissions` default: the empty mapping. -/
def workflow_default_permissions : Doc := []

/-- `Action.get_action_definition`: `name`, `description`, and a nested
`runs` object with the execution mode and the step list. -/
def get_action_definition (action_name description usingMode : String)
    (steps : List Value) : Doc :=
  [("name", .str action_name),
   ("description", .str description),
   ("runs", .map [("using", .str usingMode), ("steps", .list steps)])]

/-- The message both `Workflow.handle` and `Action.handle` raise when no
subcommand selected a function. -/
def noCommandMsg : String := "No command provided. Use `add` or `delete` command."

/-- `Workflow.handle`: without a `func` from the subparsers, raise
`CommandError(noCommandMsg)`; otherwise run the selected function (modelled by
its result). -/
def workflowHandle (func : Option HandleResult) : HandleResult :=
  match func with
  | none => .error (.commandError (some noCommandMsg))
  | some r => r

/-- `Action.handle`: identical to `Workflow.handle`. -/
def actionHandle (func : Option HandleResult) : HandleResult :=
  match func with
  | none => .error (.commandError (some noCommandMsg))
  | some r => r

/-- The subparser names `Workflow.add_arguments` registers, in order. -/
def workflowSubcommands : List String := ["delete", "create"]

/-- The subparser names `Action.add_arguments` registers, in order. -/
def actionSubcommands : List String := ["delete", "create"]

/-! ### On-disk state of the builders -/

/-- Directories and files on disk.  A file's content is the document it holds:
`none` models a file that was created/truncated by `open(..., "w")` with
nothing dumped into it yet, `some doc` models `yaml.dump(doc)` having been
written (the external serializer is not re-modelled). -/
structure FileSys where
  dirs : List String
  files : List (String × Option Doc)

/-- Remove a key from a mapping (`os.remove`). -/
def assocRemove {α : Type} (l : List (String × α)) (k : String) :
    List (String × α) :=
  match l with
  | [] => []
  | (k2, v) :: rest =>
    if k2 = k then assocRemove rest k else (k2, v) :: assocRemove rest k

/-- `mkdir(parents=True, exist_ok=True)` for one directory path. -/
def insertDir (fs : FileSys) (d : String) : FileSys :=
  { fs with dirs := if d ∈ fs.dirs then fs.dirs else fs.dirs ++ [d] }

/-- `Workflow.create`: make the parent directory, open the workflow file for
writing (creating or truncating it), then assemble the definition and dump
it.  The definition is assembled inside the `with open(...)` block, so when
assembly raises, the exception propagates and the file is left empty. -/
def workflowCreate (fs : FileSys) (workflow_id : String)
    (defn : Except PyErr Doc) : HandleResult × FileSys :=
  let fs1 := insertDir fs BASE_WORKFLOW_DIR
  let p := workflowPath workflow_id
  let fs2 := { fs1 with files := assocSet fs1.files p none }
  match defn with
  | .error e => (.error e, fs2)
  | .ok doc => (.ok (), { fs2 with files := assocSet fs2.files p (some doc) })

/-- `Workflow.delete`: remove the workflow file only if it exists; a missing
file is a silent no-op. -/
def workflowDelete (fs : FileSys) (workflow_id : String) :
    HandleResult × FileSys :=
  let p := workflowPath workflow_id
  match assocFind fs.files p with
  | some _ => (.ok (), { fs with files := assocRemove fs.files p })
  | none => (.ok (), fs)

/-- `Action.create`: make the action directory (with parents), then write the
assembled definition to `action.yml`. -/
def actionCreate (fs : FileSys) (action_id : String) (defn : Doc) :
    HandleResult × FileSys :=
  let fs1 := insertDir (insertDir fs BASE_ACTION_DIR) (actionDirPath action_id)
  (.ok (),
    { fs1 with
      files := assocSet fs1.files (actionFilePath action_id) (some defn) })

/-- `Action.delete`: `os.remove` on `action.yml` with no existence check — a
missing file raises `FileNotFoundError`. -/
def actionDelete (fs : FileSys) (action_id : String) :
    HandleResult × FileSys :=
  let p := actionFilePath action_id
  match assocFind fs.files p with
  | some _ => (.ok (), { fs with files := assocRemove fs.files p })
  | none => (.error (.fileNotFoundError p), fs)

theorem assocFind_assocRemove_self {α : Type} (l : List (String × α))
    (k : String) : assocFind (assocRemove l k) k = none := by
  induction l with
  | nil => simp [assocRemove, assocFind]
  | cons p rest ih =>
    obtain ⟨k2, v2⟩ := p
    by_cases h : k2 = k
    · simp [assocRemove, h, ih]
    · simp [assocRemove, assocFind, h, ih]

/-- C2 counterexample: building a workflow document with both the permission
hook and the trigger hook returning empty mappings still leaves the trigger
key `on` in the document (bound to the empty mapping); only `permissions` is
omitted.  Since the serializer emits every entry of the mapping, the
serialized document does contain the trigger key. -/
theorem c2_trigger_key_counterexample :
    keysOf (get_workflow_definition "W" "w" [] [] []) =
      ["name", "run-name", "on", "jobs"]
    ∧ "on" ∈ keysOf (get_workflow_definition "W" "w" [] [] [])
    ∧ assocFind (get_workflow_definition "W" "w" [] [] []) "on" =
      some (.map []) :=
  ⟨rfl, by decide, rfl⟩

/-- C2 amended: with both hooks returning empty mappings, the `permissions`
key is omitted from the built document (key omission, not a null value), but
the trigger key `on` is always present, bound to the empty trigger mapping;
the document's keys are exactly `name`, `run-name`, `on`, `jobs`. -/
theorem c2_empty_hooks_keys (workflow_name workflow_id : String) (jobs : Doc) :
    keysOf (get_workflow_definition workflow_name workflow_id [] [] jobs) =
      ["name", "run-name", "on", "jobs"]
    ∧ "permissions" ∉
      keysOf (get_workflow_definition workflow_name workflow_id [] [] jobs)
    ∧ assocFind (get_workflow_definition workflow_name workflow_id [] [] jobs)
      "permissions" = none
    ∧ assocFind (get_workflow_definition workflow_name workflow_id [] [] jobs)
      "on" = some (.map []) := by
  have h : get_workflow_definition workflow_name workflow_id [] [] jobs =
      [("name", .str workflow_name), ("run-name", .str workflow_id),
       ("on", .map []), ("jobs", .map jobs)] := by
    simp [get_workflow_definition, assocSet]
  rw [h]
  exact ⟨by simp [keysOf], by simp [keysOf], by simp [assocFind],
    by simp [assocFind]⟩

/-- C3: `create` followed by `delete` removes the document file for both
builders; `Workflow.delete` on a missing file succeeds as a no-op, while
`Action.delete` on a missing file fails with `FileNotFoundError`. -/
theorem c3_create_delete_asymmetry :
    (∀ (fs : FileSys) (wid : String) (defn : Except PyErr Doc),
      assocFind
        ((workflowDelete (workflowCreate fs wid defn).2 wid).2).files
        (workflowPath wid) = none
      ∧ (workflowDelete (workflowCreate fs wid defn).2 wid).1 = .ok ())
    ∧ (∀ (fs : FileSys) (wid : String),
      assocFind fs.files (workflowPath wid) = none →
      workflowDelete fs wid = (.ok (), fs))
    ∧ (∀ (fs : FileSys) (aid : String) (defn : Doc),
      assocFind ((actionDelete (actionCreate fs aid defn).2 aid).2).files
        (actionFilePath aid) = none
      ∧ (actionDelete (actionCreate fs aid defn).2 aid).1 = .ok ())
    ∧ (∀ (fs : FileSys) (aid : String),
      assocFind fs.files (actionFilePath aid) = none →
      actionDelete fs aid = (.error (.fileNotFoundError (actionFilePath aid)),
        fs)) := by
  refine ⟨?_, ?_, ?_, ?_⟩
  · intro fs wid defn
    cases defn with
    | error e =>
      constructor <;>
        simp [workflowCreate, workflowDelete, assocFind_assocSet_self,
          assocFind_assocRemove_self]
    | ok doc =>
      constructor <;>
        simp [workflowCreate, workflowDelete, assocFind_assocSet_self,
          assocFind_assocRemove_self]
  · intro fs wid h
    simp [workflowDelete, h]
  · intro fs aid defn
    constructor <;>
      simp [actionCreate, actionDelete, assocFind_assocSet_self,
        assocFind_assocRemove_self]
  · intro fs aid h
    simp [actionDelete, h]

/-- Witness for C3 at concrete inputs: on an empty filesystem, create-then-
delete of workflow `w` leaves no `w.yml`; deleting the absent workflow `w`
succeeds unchanged; create-then-delete of action `a` removes `action.yml`;
deleting the absent action `a` raises `FileNotFoundError`. -/
theorem c3_create_delete_asymmetry_witness :
    assocFind
      ((workflowDelete (workflowCreate ⟨[], []⟩ "w" (.ok [])).2 "w").2).files
      (workflowPath "w") = none
    ∧ workflowDelete ⟨[], []⟩ "w" = (.ok (), ⟨[], []⟩)
    ∧ assocFind
      ((actionDelete (actionCreate ⟨[], []⟩ "a" []).2 "a").2).files
      (actionFilePath "a") = none
    ∧ actionDelete ⟨[], []⟩ "a" =
      (.error (.fileNotFoundError (actionFilePath "a")), ⟨[], []⟩) :=
  ⟨(c3_create_delete_asymmetry.1 ⟨[], []⟩ "w" (.ok [])).1,
   c3_create_delete_asymmetry.2.1 ⟨[], []⟩ "w" rfl,
   (c3_create_delete_asymmetry.2.2.1 ⟨[], []⟩ "a" []).1,
   c3_create_delete_asymmetry.2.2.2 ⟨[], []⟩ "a" rfl⟩

/-- C9: invoking a workflow or action document command with no
create/delete subcommand raises the domain error `CommandError` with message
`No command provided. Use 'add' or 'delete' command.`, which the invocation
boundary maps to exit status 1 — and the named `add` subcommand does not
exist: the registered subcommands are `delete` and `create`. -/
theorem c9_no_subcommand_error :
    workflowHandle none = .error (.commandError (some noCommandMsg))
    ∧ actionHandle none = .error (.commandError (some noCommandMsg))
    ∧ noCommandMsg = "No command provided. Use `add` or `delete` command."
    ∧ exceptCommandError (workflowHandle none) = .exit 1 [noCommandMsg]
    ∧ exceptCommandError (actionHandle none) = .exit 1 [noCommandMsg]
    ∧ "add" ∉ workflowSubcommands
    ∧ "add" ∉ actionSubcommands
    ∧ "create" ∈ workflowSubcommands ∧ "delete" ∈ workflowSubcommands :=
  ⟨rfl, rfl, rfl, rfl, rfl, by decide, by decide, by decide, by decide⟩

/-! ## The test-pipeline generator (`src/scripts/ci/python_tests.py`) -/

/-- Truthiness of a `list[str] | None` parameter (`if not tests:`). -/
def optListFalsy (l : Option (List String)) : Bool :=
  match l with
  | none => true
  | some xs => xs.isEmpty

/-- `x in tests` for such a parameter. -/
def optContains (l : Option (List String)) (x : String) : Bool :=
  (l.getD []).contains x

/-- Truthiness of the `coverage_fail_under : int | None` parameter. -/
def optIntTruthy (n : Option Int) : Bool :=
  match n with
  | none => false
  | some v => decide (v ≠ 0)

/-- Truthiness of the `coverage_fail_regressed : bool | None` parameter. -/
def optBoolTruthy (b : Option Bool) : Bool :=
  match b with
  | none => false
  | some v => v

/-- The interactive `prompt_bool` oracle: the answer given to each message.
In the non-interactive paths of the claims it is never consulted. -/
abbrev Prompts := String → Bool

/-- `GitHubPythonTest.get_checkout`. -/
def get_checkout : Value :=
  .map [("name", .str "Checkout"), ("uses", .str "actions/checkout@v4")]

/-- `GitHubPythonTest.get_build`. -/
def get_build : Value :=
  .map [("name", .str "Build"), ("uses", .str "./.github/actions/build")]

/-- `GitHubPythonTest.get_file_changed`. -/
def get_file_changed : Value :=
  .map [("name", .str "File changed"), ("id", .str "file-changed"),
    ("uses", .str "tj-actions/changed-files@v44"),
    ("with", .map [("files", .str "**/*.py")])]

def ruffJob : Value :=
  .map [("name", .str "Python linter: ruff"),
    ("runs-on", .str "ubuntu-latest"),
    ("container", .str "python:3.12-slim-bookworm"),
    ("if", .str "$\x7b\x7b github.event_name == \x27pull_request\x27 \x7d\x7d"),
    ("steps", .list [get_checkout, get_build, get_file_changed,
      .map [("name", .str "Run ruff"), ("id", .str "run-ruff"),
        ("if", .str
          "$\x7b\x7b steps.file-changed.outputs.any_changed == \x27true\x27 \x7d\x7d"),
        ("run", .str
          "poetry run python-ruff $\x7b\x7b steps.file-changed.outputs.all_changed_files \x7d\x7d")]])]

def lockJob : Value :=
  .map [("name", .str "Python linter: poetry lock check"),
    ("runs-on", .str "ubuntu-latest"),
    ("container", .str "python:3.12-slim-bookworm"),
    ("if", .str "$\x7b\x7b github.event_name == \x27pull_request\x27 \x7d\x7d"),
    ("steps", .list [get_checkout, get_build,
      .map [("name", .str "Run poetry lock check"), ("id", .str "run-lock"),
        ("run", .str "poetry lock --check")]])]

def mypyJob : Value :=
  .map [("name", .str "Python linter: mypy"),
    ("runs-on", .str "ubuntu-latest"),
    ("container", .str "python:3.12-slim-bookworm"),
    ("if", .str "$\x7b\x7b github.event_name == \x27pull_request\x27 \x7d\x7d"),
    ("steps", .list [get_checkout, get_build, get_file_changed,
      .map [("name", .str "Run mypy"), ("id", .str "run-mypy"),
        ("run", .str
          "poetry run python-type-check $\x7b\x7b steps.file-changed.outputs.all_changed_files \x7d\x7d")]])]

def importlinterJob : Value :=
  .map [("name", .str "Python linter: import linter"),
    ("runs-on", .str "ubuntu-latest"),
    ("container", .str "python:3.12-slim-bookworm"),
    ("if", .str "$\x7b\x7b github.event_name == \x27pull_request\x27 \x7d\x7d"),
    ("steps", .list [get_checkout, get_build, get_file_changed,
      .map [("name", .str "Run import linter"),
        ("id", .str "run-importlinter"),
        ("run", .str "poetry run python-check-imports")]])]

def pytestJob : Value :=
  .map [("name", .str "Python test"),
    ("runs-on", .str "ubuntu-latest"),
    ("container", .str "python:3.12-slim-bookworm"),
    ("steps", .list [get_checkout, get_build,
      .map [("name", .str "Run pytest"), ("id", .str "run-pytest"),
        ("run", .str "poetry run python-tests")]])]

/-- The job emitted per registered test suite in `get_tests`. -/
def testJob (test : String) : Value :=
  .map [("name", .str ("Python test: " ++ test)),
    ("runs-on", .str "ubuntu-latest"),
    ("container", .str "python:3.12-slim-bookworm"),
    ("steps", .list [get_checkout, get_build,
      .map [("name", .str ("Run " ++ test)),
        ("id", .str ("run-" ++ test.replace "_" "-")),
        ("run", .str ("poetry run python-test-suite " ++ test))]])]

def coverageJob (fail_under_param : String) : Value :=
  .map [("name", .str "Python test: coverage"),
    ("runs-on", .str "ubuntu-latest"),
    ("container", .str "python:3.12-slim-bookworm"),
    ("steps", .list [get_checkout, get_build,
      .map [("name", .str "Run coverage"), ("id", .str "run-coverage"),
        ("run", .str ("poetry run python-coverage " ++ fail_under_param))],
      .map [("name", .str "Upload coverage"), ("id", .str "upload-coverage"),
        ("uses", .str "codecov/codecov-action@v4"),
        ("with", .map [("files", .str "coverage/report.xml"),
          ("fail_ci_if_error", .str "true"),
          ("verbose", .str "true")])]])]

/-- The synthetic gate job `python-tests-passed`, built from the list of
required job names. -/
def testsPassedJob (all_required : List String) : Value :=
  .map [("name", .str "Python test: OK"),
    ("runs-on", .str "ubuntu-latest"),
    ("container", .str "python:3.12-slim-bookworm"),
    ("if", .str "$\x7b\x7b always() \x7d\x7d"),
    ("needs", .list (all_required.map .str)),
    ("env", .map [("RESULTS", .str (String.intercalate "\n"
      (all_required.map (fun need =>
        "$\x7b\x7b needs." ++ need ++ ".result ==\x27success\x27 \x7d\x7d"))))]),
    ("steps", .list [.map [("id", .str "test-results"),
      ("name", .str "Test results"),
      ("run", .str (String.intercalate "\n"
        ["echo $\x7b\x7b RESULTS \x7d\x7d",
         "for r in $RESULTS",
         "do",
         "    if [ $r = \"success\" ] || [ $r = \"skipped\" ];",
         "    then",
         "        true",
         "    else",
         "        echo \"Some tests failed\"",
         "        exit 1",
         "    fi",
         "done",
         "echo \"All tests passed\""]))]])]

/-- `GitHubPythonTest.get_linters`: maybe add `ruff`, then maybe `lock`. -/
def get_linters (prompts : Prompts) (jobs : Doc)
    (tests : Option (List String)) : Doc :=
  let ruff := if optListFalsy tests then prompts "Do you want to run ruff?"
    else optContains tests "ruff" || optContains tests "ALL"
  let jobs := if ruff then assocSet jobs "ruff" ruffJob else jobs
  let lock := if optListFalsy tests then
      prompts "Do you want to run poetry lock check?"
    else optContains tests "lock" || optContains tests "ALL"
  if lock then assocSet jobs "lock" lockJob else jobs

/-- `GitHubPythonTest.get_static_tests`: maybe `mypy`, then `importlinter`. -/
def get_static_tests (prompts : Prompts) (jobs : Doc)
    (tests : Option (List String)) : Doc :=
  let mypy := if optListFalsy tests then prompts "Do you want to run mypy?"
    else optContains tests "mypy" || optContains tests "ALL"
  let jobs := if mypy then assocSet jobs "mypy" mypyJob else jobs
  let importlinter := if optListFalsy tests then
      prompts "Do you want to run import linter?"
    else optContains tests "importlinter" || optContains tests "ALL"
  if importlinter then assocSet jobs "importlinter" importlinterJob else jobs

/-- `GitHubPythonTest.get_tests`: with an empty test registry the `pytest`
job is added unconditionally (the computed `test_run` is never used);
otherwise one job per registered suite that is selected. -/
def get_tests (prompts : Prompts) (jobs : Doc)
    (tests : Option (List String)) (all_tests : List String) : Doc :=
  if all_tests.isEmpty then
    assocSet jobs "pytest" pytestJob
  else
    all_tests.foldl (fun jobs test =>
      let test_run := if optListFalsy tests then
          prompts ("Do you want to run " ++ test ++ "?")
        else optContains tests test || optContains tests "ALL"
      if test_run then assocSet jobs test (testJob test) else jobs) jobs

/-- `GitHubPythonTest.get_coverage`: when the coverage job is selected and
`coverage_fail_regressed` is truthy, raise `NotImplementedError`; otherwise
derive the `--fail-under` parameter from a truthy `coverage_fail_under`. -/
def get_coverage (prompts : Prompts) (jobs : Doc)
    (tests : Option (List String)) (coverage_fail_under : Option Int)
    (coverage_fail_regressed : Option Bool) : Except PyErr Doc :=
  let coverage := if optListFalsy tests then
      prompts "Do you want to run coverage?"
    else optContains tests "coverage" || optContains tests "ALL"
  if coverage then
    if optBoolTruthy coverage_fail_regressed then
      .error .notImplementedError
    else
      let fail_under_param := if optIntTruthy coverage_fail_under then
          "--fail-under=" ++ toString (coverage_fail_under.getD 0)
        else ""
      .ok (assocSet jobs "coverage" (coverageJob fail_under_param))
  else .ok jobs

/-- The `all_required` list of `GitHubPythonTest.get_tests_passed`: the job
names marked required, in job-graph order.  `required is None` triggers the
interactive prompt; otherwise membership (or the `ALL` sentinel) decides. -/
def requiredList (prompts : Prompts) (jobs : Doc)
    (required : Option (List String)) : List String :=
  (keysOf jobs).filter (fun name =>
    match required with
    | none => prompts ("Is " ++ name ++ " required for the CI?")
    | some req => req.contains name || req.contains "ALL")

/-- `GitHubPythonTest.get_tests_passed`: return the graph unchanged when no
job is marked required, else append the gate job. -/
def get_tests_passed (prompts : Prompts) (jobs : Doc)
    (required : Option (List String)) : Doc :=
  let all_required := requiredList prompts jobs required
  if all_required.isEmpty then jobs
  else assocSet jobs "python-tests-passed" (testsPassedJob all_required)

/-- `GitHubPythonTest.get_jobs`: thread the ordered job graph through the
five assembly hooks. -/
def get_jobs (prompts : Prompts) (tests required : Option (List String))
    (coverage_fail_under : Option Int) (coverage_fail_regressed : Option Bool)
    (all_tests : List String) : Except PyErr Doc :=
  let jobs : Doc := []
  let jobs := get_linters prompts jobs tests
  let jobs := get_static_tests prompts jobs tests
  let jobs := get_tests prompts jobs tests all_tests
  match get_coverage prompts jobs tests coverage_fail_under
      coverage_fail_regressed with
  | .error e => .error e
  | .ok jobs => .ok (get_tests_passed prompts jobs required)

/-- The content of `scripts.python.tests._TEST_REGISTRY` once this
repository's modules are imported: only the base `Pytest` command (named
`pytest`) registers itself; every other `Pytest` subclass sets `bypass`. -/
def the_test_registry : List String := ["pytest"]

/-- `GitHubPythonTest.get_workflow_definition`: the generic builder with this
workflow's name and id, the default (empty) permissions, the default
triggers, and the assembled job graph; an exception from `get_jobs`
propagates. -/
def githubPythonTestDefinition (prompts : Prompts)
    (tests required : Option (List String)) (coverage_fail_under : Option Int)
    (coverage_fail_regressed : Option Bool) (all_tests : List String) :
    Except PyErr Doc :=
  match get_jobs prompts tests required coverage_fail_under
      coverage_fail_regressed all_tests with
  | .error e => .error e
  | .ok jobs => .ok (get_workflow_definition "Python Tests" "python-test"
      workflow_default_permissions workflow_default_triggers jobs)

/-- Field `key` of job `job` in a job graph. -/
def jobField (jobs : Doc) (job key : String) : Option Value :=
  match assocFind jobs job with
  | some (.map fields) => assocFind fields key
  | _ => none

/-- C1: building the test pipeline non-interactively with
`tests=["ruff"]`, `required=["ruff"]`, `coverage_fail_under=80` yields a job
graph whose keys are exactly `ruff` then `python-tests-passed`, the gate
job's `needs` list is `["ruff"]`, and in general the gate job is absent
whenever no job is marked required. -/
theorem c1_ruff_scenario (prompts : Prompts) :
    Except.map keysOf (get_jobs prompts (some ["ruff"]) (some ["ruff"])
      (some 80) (some false) the_test_registry)
      = .ok ["ruff", "python-tests-passed"]
    ∧ Except.map (fun jobs => jobField jobs "python-tests-passed" "needs")
      (get_jobs prompts (some ["ruff"]) (some ["ruff"]) (some 80) (some false)
        the_test_registry)
      = .ok (some (.list [.str "ruff"]))
    ∧ (∀ (jobs : Doc) (required : Option (List String)) (p2 : Prompts),
        requiredList p2 jobs required = [] →
        get_tests_passed p2 jobs required = jobs) := by
  refine ⟨rfl, rfl, ?_⟩
  intro jobs required p2 h
  simp [get_tests_passed, h]

/-- Witness for C1's hypothesis-bearing part at a concrete input: with the
one-job graph `ruff` and the explicit empty `required` list, no job is marked
required and the gate job is not added. -/
theorem c1_ruff_scenario_witness :
    get_tests_passed (fun _ => false) [("ruff", ruffJob)] (some []) =
      [("ruff", ruffJob)] :=
  (c1_ruff_scenario (fun _ => false)).2.2 [("ruff", ruffJob)] (some [])
    (fun _ => false) rfl

/-- C10: with the coverage job selected by an explicit `tests` list and a
truthy `--coverage-fail-regressed`, job-graph assembly raises
`NotImplementedError`; that error is not the domain error, so the invocation
boundary lets it propagate uncaught; `create` leaves the workflow file
truncated empty, with no document content written. -/
theorem c10_coverage_fail_regressed (prompts : Prompts) (jobs : Doc)
    (tests : List String) (required : Option (List String))
    (coverage_fail_under : Option Int) (all_tests : List String)
    (fs : FileSys)
    (hsel : (tests.contains "coverage" || tests.contains "ALL") = true) :
    get_coverage prompts jobs (some tests) coverage_fail_under (some true)
      = .error .notImplementedError
    ∧ get_jobs prompts (some tests) required coverage_fail_under (some true)
      all_tests = .error .notImplementedError
    ∧ githubPythonTestDefinition prompts (some tests) required
      coverage_fail_under (some true) all_tests = .error .notImplementedError
    ∧ PyErr.isCommandError .notImplementedError = false
    ∧ exceptCommandError (.error .notImplementedError)
      = .uncaught .notImplementedError
    ∧ (workflowCreate fs "python-test"
        (githubPythonTestDefinition prompts (some tests) required
          coverage_fail_under (some true) all_tests)).1
      = .error .notImplementedError
    ∧ assocFind
      ((workflowCreate fs "python-test"
        (githubPythonTestDefinition prompts (some tests) required
          coverage_fail_under (some true) all_tests)).2).files
      (workflowPath "python-test") = some none := by
  have hne : tests ≠ [] := by
    intro h
    subst h
    simp [List.contains] at hsel
  have hcov : ∀ (js : Doc),
      get_coverage prompts js (some tests) coverage_fail_under (some true)
        = .error .notImplementedError := by
    intro js
    have hfalsy : optListFalsy (some tests) = false := by
      cases tests with
      | nil => exact absurd rfl hne
      | cons a l => simp [optListFalsy]
    have hsel2 : (optContains (some tests) "coverage"
        || optContains (some tests) "ALL") = true := by
      simpa [optContains] using hsel
    simp [get_coverage, hfalsy, hsel2, optBoolTruthy]
  have hjobs : get_jobs prompts (some tests) required coverage_fail_under
      (some true) all_tests = .error .notImplementedError := by
    simp [get_jobs, hcov]
  have hdefn : githubPythonTestDefinition prompts (some tests) required
      coverage_fail_under (some true) all_tests
      = .error .notImplementedError := by
    simp [githubPythonTestDefinition, hjobs]
  refine ⟨hcov jobs, hjobs, hdefn, rfl, rfl, ?_, ?_⟩
  · rw [hdefn]
    rfl
  · rw [hdefn]
    simp [workflowCreate, assocFind_assocSet_self]

/-- Witness for C10 at concrete inputs: `tests=["coverage"]`,
`required=[]`, `coverage_fail_under=80`, the repository's test registry and
an empty filesystem. -/
theorem c10_coverage_fail_regressed_witness :
    get_jobs (fun _ => false) (some ["coverage"]) (some []) (some 80)
      (some true) the_test_registry = .error .notImplementedError
    ∧ assocFind
      ((workflowCreate ⟨[], []⟩ "python-test"
        (githubPythonTestDefinition (fun _ => false) (some ["coverage"])
          (some []) (some 80) (some true) the_test_registry)).2).files
      (workflowPath "python-test") = some none :=
  ⟨(c10_coverage_fail_regressed (fun _ => false) [] ["coverage"] (some [])
      (some 80) the_test_registry ⟨[], []⟩ rfl).2.1,
   (c10_coverage_fail_regressed (fun _ => false) [] ["coverage"] (some [])
      (some 80) the_test_registry ⟨[], []⟩ rfl).2.2.2.2.2.2⟩

/-! ## Multi-line string serialization (`src/scripts/ci/_base.py`) -/

/-- A YAML scalar node as produced by a representer: tag, value, and the
requested style (`none` = default, which the emitter renders plain for
plain-safe strings). -/
structure ScalarNode where
  tag : String
  value : String
  style : Option Char

/-- `multiline_str_representer`: request literal block style `|` exactly when
the string contains a line break (`"\n" in data`), the default style
otherwise. -/
def multiline_str_representer (data : String) : ScalarNode :=
  if '\n' ∈ data.data then ⟨"tag:yaml.org,2002:str", data, some '|'⟩
  else ⟨"tag:yaml.org,2002:str", data, none⟩

/-- Split a character sequence at every newline (always at least one line). -/
def splitOnNl : List Char → List (List Char)
  | [] => [[]]
  | c :: cs =>
    if c = '\n' then [] :: splitOnNl cs
    else
      match splitOnNl cs with
      | [] => [[c]]
      | l :: rest => (c :: l) :: rest

/-- Join lines back with newlines (inverse of `splitOnNl`). -/
def joinNl : List (List Char) → List Char
  | [] => []
  | [l] => l
  | l :: rest => l ++ '\n' :: joinNl rest

/-- The indentation prefix of a block scalar's lines. -/
def indentChars (indent : Nat) : List Char := List.replicate indent ' '

/-- Modelled from the spec: the external YAML serializer (not part of this
repository) renders a scalar whose requested style is `|` as a literal block:
a `|` header line followed by every line of the value indented by the block
indentation. -/
def emitBlockScalar (indent : Nat) (s : String) : String :=
  String.mk ('|' :: '\n' ::
    joinNl ((splitOnNl s.data).map (fun l => indentChars indent ++ l)))

/-- Modelled from the spec: the external YAML reader parses a literal block
scalar back by splitting the block body into lines, stripping the block
indentation, and joining with newlines. -/
def parseBlockScalar (indent : Nat) (t : String) : Option String :=
  match t.data with
  | '|' :: '\n' :: rest =>
    some (String.mk (joinNl ((splitOnNl rest).map (List.drop indent))))
  | _ => none

theorem splitOnNl_ne_nil (cs : List Char) : splitOnNl cs ≠ [] := by
  cases cs with
  | nil => simp [splitOnNl]
  | cons c cs =>
    by_cases h : c = '\n'
    · simp [splitOnNl, h]
    · simp only [splitOnNl, if_neg h]
      cases splitOnNl cs with
      | nil => simp
      | cons l rest => simp

theorem joinNl_cons (l : List Char) (r : List (List Char)) (h : r ≠ []) :
    joinNl (l :: r) = l ++ '\n' :: joinNl r := by
  cases r with
  | nil => exact absurd rfl h
  | cons a t => rfl

theorem joinNl_splitOnNl (cs : List Char) : joinNl (splitOnNl cs) = cs := by
  induction cs with
  | nil => rfl
  | cons c cs ih =>
    by_cases h : c = '\n'
    · subst h
      rw [show splitOnNl ('\n' :: cs) = [] :: splitOnNl cs by
          simp [splitOnNl],
        joinNl_cons [] _ (splitOnNl_ne_nil cs), ih]
      rfl
    · simp only [splitOnNl, if_neg h]
      rcases hs : splitOnNl cs with _ | ⟨l, rest⟩
      · exact absurd hs (splitOnNl_ne_nil cs)
      · rw [hs] at ih
        cases rest with
        | nil =>
          simp [joinNl] at ih ⊢
          rw [ih]
        | cons a t =>
          rw [joinNl_cons _ _ (by simp)] at ih
          rw [joinNl_cons _ _ (by simp), ← ih]
          rfl

theorem no_nl_of_mem_splitOnNl (cs : List Char) :
    ∀ l ∈ splitOnNl cs, '\n' ∉ l := by
  induction cs with
  | nil =>
    intro l hl
    simp [splitOnNl] at hl
    simp [hl]
  | cons c cs ih =>
    intro l hl
    by_cases h : c = '\n'
    · rw [show splitOnNl (c :: cs) = [] :: splitOnNl cs by
          simp [splitOnNl, h]] at hl
      rcases List.mem_cons.mp hl with rfl | hl
      · simp
      · exact ih l hl
    · simp only [splitOnNl, if_neg h] at hl
      rcases hs : splitOnNl cs with _ | ⟨l0, rest⟩
      · exact absurd hs (splitOnNl_ne_nil cs)
      · rw [hs] at hl
        rcases List.mem_cons.mp hl with rfl | hl
        · intro hmem
          rcases List.mem_cons.mp hmem with h2 | h2
          · exact h h2.symm
          · exact ih l0 (hs ▸ List.mem_cons_self l0 rest) h2
        · exact ih l (hs ▸ List.mem_cons_of_mem l0 hl)

theorem splitOnNl_append_nl (l rest : List Char) (h : '\n' ∉ l) :
    splitOnNl (l ++ '\n' :: rest) = l :: splitOnNl rest := by
  induction l with
  | nil => simp [splitOnNl]
  | cons c l ih =>
    have hc : ¬ c = '\n' := fun hc => h (by simp [hc])
    have hl : '\n' ∉ l := fun hl => h (List.mem_cons_of_mem c hl)
    simp only [List.cons_append, splitOnNl, List.append_eq, if_neg hc, ih hl]

theorem splitOnNl_of_no_nl (l : List Char) (h : '\n' ∉ l) :
    splitOnNl l = [l] := by
  induction l with
  | nil => rfl
  | cons c l ih =>
    have hc : ¬ c = '\n' := fun hc => h (by simp [hc])
    have hl : '\n' ∉ l := fun hl => h (List.mem_cons_of_mem c hl)
    simp only [splitOnNl, if_neg hc, ih hl]

theorem splitOnNl_joinNl (ls : List (List Char)) (h : ls ≠ [])
    (h2 : ∀ l ∈ ls, '\n' ∉ l) : splitOnNl (joinNl ls) = ls := by
  induction ls with
  | nil => exact absurd rfl h
  | cons l rest ih =>
    cases rest with
    | nil =>
      rw [show joinNl [l] = l from rfl]
      exact splitOnNl_of_no_nl l (h2 l (List.mem_cons_self l []))
    | cons a t =>
      rw [joinNl_cons _ _ (by simp),
        splitOnNl_append_nl _ _ (h2 l (List.mem_cons_self l (a :: t))),
        ih (by simp) (fun l2 hl2 => h2 l2 (List.mem_cons_of_mem l hl2))]

theorem parse_emitBlockScalar (indent : Nat) (s : String) :
    parseBlockScalar indent (emitBlockScalar indent s) = some s := by
  obtain ⟨cs⟩ := s
  have hnn : ((splitOnNl cs).map (fun l => indentChars indent ++ l)) ≠ [] := by
    intro h
    exact splitOnNl_ne_nil cs (List.map_eq_nil_iff.mp h)
  have hno : ∀ l ∈ (splitOnNl cs).map (fun l => indentChars indent ++ l),
      '\n' ∉ l := by
    intro l hl
    rcases List.mem_map.mp hl with ⟨l0, hl0, rfl⟩
    intro hmem
    rcases List.mem_append.mp hmem with hin | hin
    · have := List.eq_of_mem_replicate hin
      exact absurd this (by decide)
    · exact no_nl_of_mem_splitOnNl cs l0 hl0 hin
  have hstep : parseBlockScalar indent (emitBlockScalar indent (String.mk cs))
      = some (String.mk (joinNl
        ((splitOnNl (joinNl ((splitOnNl cs).map
          (fun l => indentChars indent ++ l)))).map (List.drop indent)))) :=
    rfl
  rw [hstep, splitOnNl_joinNl _ hnn hno, List.map_map]
  have hid : ∀ l : List Char,
      (List.drop indent ∘ fun l => indentChars indent ++ l) l = l := by
    intro l
    show List.drop indent (indentChars indent ++ l) = l
    rw [indentChars, List.drop_append_of_le_length (by simp), List.drop_replicate]
    simp
  rw [List.map_congr_left (fun l _ => hid l)]
  simp [joinNl_splitOnNl]

/-- C8: the representer requests literal block style exactly for strings
containing an embedded line break (default/plain style otherwise), and a
block-style emitted string parses back to the identical string for every
value and block indentation. -/
theorem c8_multiline_roundtrip :
    (∀ s : String, '\n' ∈ s.data →
      multiline_str_representer s = ⟨"tag:yaml.org,2002:str", s, some '|'⟩)
    ∧ (∀ s : String, '\n' ∉ s.data →
      multiline_str_representer s = ⟨"tag:yaml.org,2002:str", s, none⟩)
    ∧ (∀ (indent : Nat) (s : String),
      parseBlockScalar indent (emitBlockScalar indent s) = some s) := by
  refine ⟨?_, ?_, parse_emitBlockScalar⟩
  · intro s h
    simp [multiline_str_representer, h]
  · intro s h
    simp [multiline_str_representer, h]

/-- Witness for C8 at concrete strings: `"a\nb"` is represented in block
style and round-trips; `"ab"` is represented with the default style. -/
theorem c8_multiline_roundtrip_witness :
    multiline_str_representer "a\nb"
      = ⟨"tag:yaml.org,2002:str", "a\nb", some '|'⟩
    ∧ multiline_str_representer "ab"
      = ⟨"tag:yaml.org,2002:str", "ab", none⟩
    ∧ parseBlockScalar 2 (emitBlockScalar 2 "a\nb") = some "a\nb" :=
  ⟨c8_multiline_roundtrip.1 "a\nb" (by decide),
   c8_multiline_roundtrip.2.1 "ab" (by decide),
   c8_multiline_roundtrip.2.2 2 "a\nb"⟩

end PythonTemplate
